import Mathlib

/-!
Verification of the lyric-video repository's core geometry and camera code.

The Python sources are shallowly embedded over an abstract linearly ordered
field `α` (instantiated at `ℚ` for executable checks and at `ℝ` where the
code uses `math.pi` and trigonometry).  Python exceptions are modelled with
an explicit `Except` monad; Python's `None` is `Option.none`; external math
library calls (`math.cos`, `math.sin`, `math.sqrt`, `np.arctan2`) are
abstract function parameters collected in a `PyMath` record, since those are
foreign floating-point routines, not code of this repository.
-/

/-- The Python exception kinds raised by the embedded code. -/
inductive PyErr : Type
  | typeError
  | valueError
  | attributeError
  | exception
  | zeroDivisionError
  deriving DecidableEq, Repr

/-- Computations that may raise a Python exception. -/
abbrev Py (σ : Type) : Type := Except PyErr σ

/-- Equality of embedded computation results is decidable, so concrete runs
can be checked by evaluation. -/
instance {ε σ : Type} [DecidableEq ε] [DecidableEq σ] : DecidableEq (Except ε σ) := fun x y =>
  match x, y with
  | .error a, .error b =>
    if h : a = b then .isTrue (by rw [h]) else .isFalse (by simp [h])
  | .ok a, .ok b =>
    if h : a = b then .isTrue (by rw [h]) else .isFalse (by simp [h])
  | .error _, .ok _ => .isFalse (fun hc => Except.noConfusion hc)
  | .ok _, .error _ => .isFalse (fun hc => Except.noConfusion hc)

/- Batteries marks the rational arithmetic operations `@[irreducible]`; reset
them to the default transparency so that concrete runs of the embedded code
over `ℚ` evaluate by `decide`. -/
attribute [local semireducible] Rat.add Rat.sub Rat.mul Rat.inv Rat.ofScientific

/-- A 2-tuple whose members may each be `None` (Python `(x, y)` with optional
coordinates, as produced by the `x`/`y` setters of `Element`). -/
abbrev OPair (α : Type) : Type := Option α × Option α

/-- A 4-tuple box `(left, top, right, bottom)` whose edges may each be `None`. -/
abbrev OBox (α : Type) : Type := Option α × Option α × Option α × Option α

/-- A fully numeric 4-tuple box `(left, top, right, bottom)`. -/
abbrev NBox (α : Type) : Type := α × α × α × α

/-- Four vertices, each an `(x, y)` pair. -/
abbrev Vert (α : Type) : Type := (α × α) × (α × α) × (α × α) × (α × α)

/-- The external math routines used by the source (`math.cos`, `math.sin`,
`math.sqrt`, `np.arctan2`, `math.pi`).  They are parameters of the embedding:
the repository calls them but does not define them. -/
structure PyMath (α : Type) : Type where
  cos : α → α
  sin : α → α
  sqrt : α → α
  atan2 : α → α → α
  pi : α

/-- Python's `%` on numbers with a (positive) divisor `m`:
`x % m = x - m * floor (x / m)` (the result carries the divisor's sign). -/
def pymod {α : Type} [LinearOrderedField α] [FloorRing α] (x m : α) : α :=
  x - m * (⌊x / m⌋ : ℤ)

/-- Model of `Element` of `src/src/elements/element.py`: `_position`, `_object_box`,
`_angle` attributes.  `angle = none` models the `_angle` attribute never
having been assigned (reading it raises `AttributeError`); the setter only
ever stores numeric values. -/
structure Element (α : Type) : Type where
  position : Option (OPair α)
  object_box : Option (OBox α)
  angle : Option α
  deriving DecidableEq, Repr

namespace Element

variable {α : Type} [LinearOrderedField α]

/-- Model of `Element._validate_tuple(value, 2)`: `None` is accepted; a tuple must have
only numeric members, otherwise `ValueError`.  (Arity and tuple-ness are
enforced by the embedding's types.) -/
def validate_coords2 : Option (OPair α) → Py Unit
  | none => .ok ()
  | some (some _, some _) => .ok ()
  | some _ => .error .valueError

/-- Model of `Element._validate_tuple(value, 4)`: as `validate_coords2` for 4-tuples. -/
def validate_coords4 : Option (OBox α) → Py Unit
  | none => .ok ()
  | some (some _, some _, some _, some _) => .ok ()
  | some _ => .error .valueError

/-- The `position` property setter: validate, then store. -/
def set_position (e : Element α) (value : Option (OPair α)) : Py (Element α) :=
  match validate_coords2 value with
  | .error err => .error err
  | .ok _ => .ok { e with position := value }

/-- Model of `Element._fix_object_box` on one `(low, high)` pair: Python's
`if left and right: if left > right: swap` — the guard is truthiness, so the
swap only happens when both edges are non-`None` AND nonzero. -/
def fix_pair (x y : Option α) : Option α × Option α :=
  match x, y with
  | some a, some b => if a ≠ 0 ∧ b ≠ 0 ∧ b < a then (some b, some a) else (some a, some b)
  | a, b => (a, b)

/-- Model of `Element._fix_object_box`: normalize `(left, right)` and `(top, bottom)`
pairs by swap; no-op when `_object_box` is `None`. -/
def fix_object_box (e : Element α) : Element α :=
  match e.object_box with
  | none => e
  | some (l, t, r, b) =>
    { e with object_box := some ((fix_pair l r).1, (fix_pair t b).1, (fix_pair l r).2, (fix_pair t b).2) }

/-- The `object_box` property setter: `None` clears the box; otherwise
validate (a tuple containing `None` edges raises `ValueError` before any
assignment), store, then `_fix_object_box`. -/
def set_object_box (e : Element α) (box : Option (OBox α)) : Py (Element α) :=
  match box with
  | none => .ok { e with object_box := none }
  | some b =>
    match validate_coords4 (some b) with
    | .error err => .error err
    | .ok _ => .ok (fix_object_box { e with object_box := some b })

/-- Replace one edge (0 = left, 1 = top, 2 = right, 3 = bottom) of a box. -/
def update_box_edge (b : OBox α) (index : Fin 4) (v : α) : OBox α :=
  match index with
  | 0 => (some v, b.2.1, b.2.2.1, b.2.2.2)
  | 1 => (b.1, some v, b.2.2.1, b.2.2.2)
  | 2 => (b.1, b.2.1, some v, b.2.2.2)
  | 3 => (b.1, b.2.1, b.2.2.1, some v)

/-- Model of `Element._set_object_box_edge`: build the new tuple (starting from
`(None, None, None, None)` when no box is stored), assign it through the
`object_box` setter, then call `_fix_object_box` once more. -/
def set_object_box_edge (e : Element α) (index : Fin 4) (value : α) : Py (Element α) :=
  match e.object_box with
  | some b =>
    match set_object_box e (some (update_box_edge b index value)) with
    | .error err => .error err
    | .ok e2 => .ok (fix_object_box e2)
  | none =>
    match set_object_box e (some (update_box_edge (none, none, none, none) index value)) with
    | .error err => .error err
    | .ok e2 => .ok (fix_object_box e2)

/-- The `x` property: `None` when `_position` is `None`, else its first member. -/
def x (e : Element α) : Option α :=
  match e.position with
  | none => none
  | some p => p.1

/-- The `y` property: `None` when `_position` is `None`, else its second member. -/
def y (e : Element α) : Option α :=
  match e.position with
  | none => none
  | some p => p.2

/-- Model of `Element._get_object_box_edge(0)` (the `left` property). -/
def left (e : Element α) : Option α :=
  match e.object_box with
  | none => none
  | some (l, _, _, _) => l

/-- Model of `Element._get_object_box_edge(1)` (the `top` property). -/
def top (e : Element α) : Option α :=
  match e.object_box with
  | none => none
  | some (_, t, _, _) => t

/-- Model of `Element._get_object_box_edge(2)` (the `right` property). -/
def right (e : Element α) : Option α :=
  match e.object_box with
  | none => none
  | some (_, _, r, _) => r

/-- Model of `Element._get_object_box_edge(3)` (the `bottom` property). -/
def bottom (e : Element α) : Option α :=
  match e.object_box with
  | none => none
  | some (_, _, _, b) => b

/-- The `angle` property setter (`twoPi` stands for the constant
`2 * math.pi`).  On `None` the Python body rebinds a local and returns
without assigning `self._angle`, so the element is unchanged; a numeric value
is stored as `angle % (2 * math.pi)`. -/
def set_angle [FloorRing α] (twoPi : α) (e : Element α) (value : Option α) : Element α :=
  match value with
  | none => e
  | some a => { e with angle := some (pymod a twoPi) }

/-- Model of `Element.__init__`: run the `position`, `object_box` and `angle` setters
in order; a validation error aborts construction. -/
def init [FloorRing α] (twoPi : α) (position : Option (OPair α))
    (object_box : Option (OBox α)) (angle : Option α) : Py (Element α) :=
  match set_position ⟨none, none, none⟩ position with
  | .error err => .error err
  | .ok e1 =>
    match set_object_box e1 object_box with
    | .error err => .error err
    | .ok e2 => .ok (set_angle twoPi e2 angle)

/-- Model of `Element.calculate_absolute_box(position, box)`: validate both tuples,
unpack them (unpacking `None` raises `TypeError`), and translate each
non-`None` edge by the corresponding coordinate.  A method on `self` in the
source, but it reads no instance attribute, so it is embedded as a plain
function. -/
def calculate_absolute_box (position : Option (OPair α)) (box : Option (OBox α)) :
    Py (OBox α) :=
  match validate_coords2 position with
  | .error err => .error err
  | .ok _ =>
    match validate_coords4 box with
    | .error err => .error err
    | .ok _ =>
      match position with
      | none => .error .typeError
      | some (px, py) =>
        match box with
        | none => .error .typeError
        | some (l, t, r, b) =>
          match px, py with
          | some xv, some yv =>
            .ok (l.map (· + xv), t.map (· + yv), r.map (· + xv), b.map (· + yv))
          | _, _ => .error .valueError

/-- Rotate `(x, y)` with the precomputed `cos_a`, `sin_a` of the source:
`(x * cos_a - y * sin_a, x * sin_a + y * cos_a)`. -/
def rotate_point (cos_a sin_a xv yv : α) : α × α :=
  (xv * cos_a - yv * sin_a, xv * sin_a + yv * cos_a)

/-- The `vertecies` property: returns `None` when `_object_box` is `None`;
validates the stored box (a `None` edge raises `ValueError`); reading a
never-assigned `_angle` raises `AttributeError`; otherwise rotates the four
box corners with `cos_a = cos(angle)`, `sin_a = sin(-angle)`. -/
def vertecies (M : PyMath α) (e : Element α) : Py (Option (Vert α)) :=
  match e.object_box with
  | none => .ok none
  | some b =>
    match validate_coords4 (some b) with
    | .error err => .error err
    | .ok _ =>
      match e.angle with
      | none => .error .attributeError
      | some a =>
        match b with
        | (some l, some t, some r, some bo) =>
          .ok (some
            (rotate_point (M.cos a) (M.sin (-a)) l t,
             rotate_point (M.cos a) (M.sin (-a)) r t,
             rotate_point (M.cos a) (M.sin (-a)) r bo,
             rotate_point (M.cos a) (M.sin (-a)) l bo))
        | _ => .error .valueError

/-- The `bounding_box` property: `min`/`max` of the vertex coordinates;
`None` propagates, exceptions propagate. -/
def bounding_box (M : PyMath α) (e : Element α) : Py (Option (NBox α)) :=
  match vertecies M e with
  | .error err => .error err
  | .ok none => .ok none
  | .ok (some ((x1, y1), (x2, y2), (x3, y3), (x4, y4))) =>
    .ok (some (min (min (min x1 x2) x3) x4, min (min (min y1 y2) y3) y4,
               max (max (max x1 x2) x3) x4, max (max (max y1 y2) y3) y4))

/-- View a fully numeric box as an optional-edged box (the shape
`calculate_absolute_box` consumes). -/
def box_to_obox (b : NBox α) : OBox α :=
  (some b.1, some b.2.1, some b.2.2.1, some b.2.2.2)

/-- The `absolute_bounding_box` property:
`calculate_absolute_box(self.position, self.bounding_box)`. -/
def absolute_bounding_box (M : PyMath α) (e : Element α) : Py (OBox α) :=
  match bounding_box M e with
  | .error err => .error err
  | .ok bb => calculate_absolute_box e.position (bb.map box_to_obox)

/-- The `absolute_object_box` property: `None` when `position` or
`bounding_box` is `None` (exceptions from `bounding_box` propagate), else
`calculate_absolute_box(self.position, self.object_box)`. -/
def absolute_object_box (M : PyMath α) (e : Element α) : Py (Option (OBox α)) :=
  match e.position with
  | none => .ok none
  | some _ =>
    match bounding_box M e with
    | .error err => .error err
    | .ok none => .ok none
    | .ok (some _) =>
      match calculate_absolute_box e.position e.object_box with
      | .error err => .error err
      | .ok b => .ok (some b)

end Element

namespace Element

variable {α : Type} [LinearOrderedField α]

/-- Both stored edge pairs of a fixed box are ordered whenever both members
are nonzero. -/
def ordered_pairs (e : Element α) : Prop :=
  (∀ l r, e.left = some l → e.right = some r → l ≠ 0 → r ≠ 0 → l ≤ r) ∧
  (∀ t b, e.top = some b → e.bottom = some t → b ≠ 0 → t ≠ 0 → b ≤ t)

end Element

/-- A concrete stand-in for the external math routines, used only to evaluate
the embedding at concrete inputs over `ℚ`. -/
def qmath : PyMath ℚ := ⟨fun _ => 0, fun _ => 0, fun _ => 0, fun _ _ => 0, 0⟩

/-! ### `Scene` of `src/src/Scene.py` -/

/-- Model of `Scene`: validated non-negative integer `width`/`height` and the ordered
element list.  An element is identified by its index in `elements`; Python's
`is` identity test is embedded as index equality. -/
structure Scene (α : Type) : Type where
  width : ℤ
  height : ℤ
  elements : List (Element α)

namespace Scene

variable {α : Type} [LinearOrderedField α]

/-- The `artboard_box` property `(0, 0, self.width, self.height)`. -/
def artboard_box (s : Scene α) : OBox α :=
  (some 0, some 0, some ((s.width : α)), some ((s.height : α)))

/-- Model of `random.uniform(a, b)`, which CPython computes as
`a + (b - a) * random.random()`; `u` stands for the `random.random()` unit
sample drawn from the injected random stream. -/
def uniform (a b u : α) : α := a + (b - a) * u

/-- Model of `Scene.is_box_touching(box1, box2, minimum_distance)`: iterating a `None`
box or a box with a `None` coordinate raises `TypeError`; otherwise the
separating-axis test of the source. -/
def is_box_touching (box1 box2 : Option (OBox α)) (minimum_distance : α) : Py Bool :=
  match box1, box2 with
  | some (some l1, some t1, some r1, some b1), some (some l2, some t2, some r2, some b2) =>
    .ok (!(decide (r2 + minimum_distance < l1) || decide (r1 + minimum_distance < l2) ||
           decide (b2 + minimum_distance < t1) || decide (b1 + minimum_distance < t2)))
  | _, _ => .error .typeError

/-- Model of `Scene.is_box_inside(inside_box, outside_box, outside_box_margin,
inside_box_padding)`: coordinate validation as above, then the four edge
comparisons of the source. -/
def is_box_inside (inside_box outside_box : Option (OBox α))
    (outside_box_margin inside_box_padding : α) : Py Bool :=
  match inside_box, outside_box with
  | some (some il, some it, some ir, some ib), some (some ol, some ot, some oR, some ob) =>
    .ok (decide (il - inside_box_padding ≥ ol + outside_box_margin) &&
         decide (it - inside_box_padding ≥ ot + outside_box_margin) &&
         decide (ir + inside_box_padding ≤ oR - outside_box_margin) &&
         decide (ib + inside_box_padding ≤ ob - outside_box_margin))
  | _, _ => .error .typeError

/-- One candidate draw of `move_random`: the artboard-margin check and the
two `random.uniform` calls (constrained by the element's bounding box when
`constrain_to_artboard`, the full canvas otherwise).  `r` is the random
stream, `k` the index of its next unit sample. -/
def sample_position (M : PyMath α) (s : Scene α) (e : Element α)
    (constrain_to_artboard : Bool) (artboard_margin : α) (r : ℕ → α) (k : ℕ) :
    Py (α × α) :=
  if constrain_to_artboard then
    if artboard_margin * 2 ≥ (s.height : α) ∨ artboard_margin * 2 ≥ (s.width : α) then
      .error .valueError
    else
      match Element.bounding_box M e with
      | .error err => .error err
      | .ok none => .error .typeError
      | .ok (some (l, t, rr, b)) =>
        .ok (uniform (-l + artboard_margin) ((s.width : α) - rr - artboard_margin) (r k),
             uniform (-t + artboard_margin) ((s.height : α) - b - artboard_margin) (r (k + 1)))
  else
    .ok (uniform 0 (s.width : α) (r k), uniform 0 (s.height : α) (r (k + 1)))

/-- The collision scan of `move_random`: for each scene element other than
the moved one (index `i`), test the moved element's bounding box previewed at
`(xv, yv)` against that element's absolute bounding box; `True` short-circuits
(`collided`). -/
def scan_collision (M : PyMath α) (e : Element α) (i : ℕ) (xv yv : α) (md : α) :
    List (ℕ × Element α) → Py Bool
  | [] => .ok false
  | (j, se) :: rest =>
    if j = i then scan_collision M e i xv yv md rest
    else
      match Element.bounding_box M e with
      | .error err => .error err
      | .ok bb =>
        match Element.calculate_absolute_box (some (some xv, some yv))
            (bb.map Element.box_to_obox) with
        | .error err => .error err
        | .ok box1 =>
          match Element.absolute_bounding_box M se with
          | .error err => .error err
          | .ok box2 =>
            match is_box_touching (some box1) (some box2) md with
            | .error err => .error err
            | .ok true => .ok true
            | .ok false => scan_collision M e i xv yv md rest

/-- Model of `Scene.move_random` with the attempt loop as fuel recursion.  `e` is the
element being moved, `i` its index in the scene (for the `is` identity skip);
`scene_elements = none` defaults to the scene's own (index-tagged) element
list and `minimum_distance = none` defaults to `0`, as in the source.  Only
the moved element is ever mutated; the new element state is returned next to
the `Optional[(x, y)]` result. -/
def move_random (M : PyMath α) (s : Scene α) (e : Element α) (i : ℕ)
    (constrain_to_artboard : Bool) (artboard_margin : α) (collision : Bool)
    (scene_elements : Option (List (ℕ × Element α))) (minimum_distance : Option α)
    (r : ℕ → α) : (fuel : ℕ) → (k : ℕ) → Py (Option (α × α) × Element α)
  | 0, _ => .ok (none, e)
  | fuel + 1, k =>
    match sample_position M s e constrain_to_artboard artboard_margin r k with
    | .error err => .error err
    | .ok (xv, yv) =>
      if collision = false then
        match Element.set_position e (some (some xv, some yv)) with
        | .error err => .error err
        | .ok e2 => .ok (some (xv, yv), e2)
      else
        match scan_collision M e i xv yv (minimum_distance.getD 0)
            (scene_elements.getD s.elements.enum) with
        | .error err => .error err
        | .ok true =>
          move_random M s e i constrain_to_artboard artboard_margin collision
            scene_elements minimum_distance r fuel (k + 2)
        | .ok false =>
          match Element.set_position e (some (some xv, some yv)) with
          | .error err => .error err
          | .ok e2 => .ok (some (xv, yv), e2)

/-- The reference-element resolution of `move_next`: an explicit reference is
used as given; otherwise an empty scene raises, `element_index(element) - 1`
indexes the previous element (Python index `-1`, the last element, when the
moved element is first), and a `None` index raises `TypeError`
(`None - 1`). -/
def resolve_reference (s : Scene α) (i : ℕ) (reference_element : Option (Element α)) :
    Py (Element α) :=
  match reference_element with
  | some ref => .ok ref
  | none =>
    if s.elements.isEmpty then .error .exception
    else if i < s.elements.length then
      if i = 0 then
        match s.elements.getLast? with
        | some el => .ok el
        | none => .error .exception
      else
        match s.elements.get? (i - 1) with
        | some el => .ok el
        | none => .error .exception
    else .error .typeError

/-- The inner collision scan of `move_next`: elements whose position is
`None` or has a `None` coordinate are skipped; the first touching element
short-circuits. -/
def touch_scan (M : PyMath α) (preview : OBox α) (i : ℕ) (md : α) :
    List (ℕ × Element α) → Py Bool
  | [] => .ok false
  | (j, se) :: rest =>
    if j = i then touch_scan M preview i md rest
    else
      match se.position with
      | none => touch_scan M preview i md rest
      | some (none, _) => touch_scan M preview i md rest
      | some (some _, none) => touch_scan M preview i md rest
      | some (some _, some _) =>
        match Element.absolute_bounding_box M se with
        | .error err => .error err
        | .ok box2 =>
          match is_box_touching (some preview) (some box2) md with
          | .error err => .error err
          | .ok true => .ok true
          | .ok false => touch_scan M preview i md rest

/-- One attempt of `move_next` (attempt number `a`): direction sampling
(`random.uniform(-1, 1)` twice when no angle is given; `math.radians` is
`angle * pi / 180`), the candidate position next to the reference, and the
three checks in source order.  `.ok none` means `continue`, `.ok (some p)`
means the candidate at `p` was accepted. -/
def move_next_attempt (M : PyMath α) (s : Scene α) (e : Element α) (i : ℕ)
    (ref : Element α) (angle : Option α) (md : α) (strict : Bool) (margin : α)
    (inc : α) (r : ℕ → α) (a k : ℕ) : Py (Option (α × α)) :=
  let distance := ((a : α) + 1) * inc
  let dxy : α × α :=
    match angle with
    | none => (distance * uniform (-1) 1 (r k), distance * uniform (-1) 1 (r (k + 1)))
    | some ang => (distance * M.cos (ang * M.pi / 180), distance * M.sin (ang * M.pi / 180))
  match Element.x ref with
  | none => .error .typeError
  | some rx =>
    match Element.y ref with
    | none => .error .typeError
    | some ry =>
      match Element.bounding_box M e with
      | .error err => .error err
      | .ok bb =>
        match Element.calculate_absolute_box (some (some (rx + dxy.1), some (ry + dxy.2)))
            (bb.map Element.box_to_obox) with
        | .error err => .error err
        | .ok preview =>
          match (if strict then is_box_inside (some preview) (some s.artboard_box) margin 0
                 else .ok true) with
          | .error err => .error err
          | .ok false => .ok none
          | .ok true =>
            match Element.absolute_object_box M ref with
            | .error err => .error err
            | .ok refbox =>
              match is_box_touching (some preview) refbox md with
              | .error err => .error err
              | .ok true => .ok none
              | .ok false =>
                match touch_scan M preview i md s.elements.enum with
                | .error err => .error err
                | .ok true => .ok none
                | .ok false => .ok (some (rx + dxy.1, ry + dxy.2))

/-- The attempt loop of `move_next`: exhausted fuel returns `False` with the
element untouched; an accepted candidate is committed through the `position`
setter and returns `True`.  An attempt without a given angle consumes two
random samples. -/
def move_next_loop (M : PyMath α) (s : Scene α) (e : Element α) (i : ℕ)
    (ref : Element α) (angle : Option α) (md : α) (strict : Bool) (margin : α)
    (inc : α) (r : ℕ → α) : (fuel : ℕ) → (a : ℕ) → (k : ℕ) → Py (Bool × Element α)
  | 0, _, _ => .ok (false, e)
  | fuel + 1, a, k =>
    match move_next_attempt M s e i ref angle md strict margin inc r a k with
    | .error err => .error err
    | .ok none =>
      move_next_loop M s e i ref angle md strict margin inc r fuel (a + 1)
        (match angle with | none => k + 2 | some _ => k)
    | .ok (some npos) =>
      match Element.set_position e (some (some npos.1, some npos.2)) with
      | .error err => .error err
      | .ok e2 => .ok (true, e2)

/-- Model of `Scene.move_next`: resolve the reference element, default `max_attempts`
to `int(max(height, width))`, compute the radius increment
`sqrt(width^2 + height^2) / max_attempts` (Python raises `ZeroDivisionError`
when `max_attempts` is `0`), then run the attempt loop. -/
def move_next (M : PyMath α) (s : Scene α) (e : Element α) (i : ℕ)
    (reference_element : Option (Element α)) (angle : Option α)
    (minimum_distance : α) (within_bounds_strict : Bool) (artboard_margin : α)
    (max_attempts : Option ℕ) (r : ℕ → α) (k : ℕ) : Py (Bool × Element α) :=
  match resolve_reference s i reference_element with
  | .error err => .error err
  | .ok ref =>
    if (max_attempts.getD (max s.height s.width).toNat) = 0 then .error .zeroDivisionError
    else
      move_next_loop M s e i ref angle minimum_distance within_bounds_strict artboard_margin
        (M.sqrt ((s.width : α) ^ 2 + (s.height : α) ^ 2) /
          ((max_attempts.getD (max s.height s.width).toNat : ℕ) : α))
        r (max_attempts.getD (max s.height s.width).toNat) 0 k

end Scene

/-- A reference element at the origin with a unit object box, used by the
concrete `move_next` witness run. -/
def wit_ref : Element ℚ := ⟨some (some 0, some 0), some (some 0, some 0, some 1, some 1), some 0⟩

/-- The element moved by the concrete `move_next` witness run. -/
def wit_e : Element ℚ := ⟨none, some (some 0, some 0, some 1, some 1), some 0⟩

/-- First element of the concrete `move_random` witness scene. -/
def wit_a : Element ℚ := ⟨some (some 1, some 1), some (some 0, some 0, some 1, some 1), some 0⟩

/-- Second element of the concrete `move_random` witness scene. -/
def wit_b : Element ℚ := ⟨some (some 50, some 50), some (some 0, some 0, some 1, some 1), some 0⟩

/-- The concrete `move_random` witness scene. -/
def wit_scene : Scene ℚ := ⟨10, 10, [wit_a, wit_b]⟩

/-- Model of `wit_a` as committed by the concrete `move_random` witness run. -/
def wit_moved : Element ℚ := ⟨some (some 0, some 0), some (some 0, some 0, some 1, some 1), some 0⟩

/-! ### `Keyframe` and `Camera` of `src/src/movie` -/

/-- Model of `Keyframe`: a time and a value (scalar or 2-vector). -/
structure Keyframe (α β : Type) : Type where
  time : α
  value : β
  deriving DecidableEq, Repr

/-- Model of `Camera`: integer resolution and the three keyframe tracks. -/
structure Camera (α : Type) : Type where
  resolution : ℤ × ℤ
  position_keyframes : List (Keyframe α (α × α))
  zoom_keyframes : List (Keyframe α α)
  rotation_keyframes : List (Keyframe α α)

/-- Model of `keyframes.sort(key=lambda keyframe: keyframe.time)`: a stable sort by
time (embedded as insertion sort, which is stable like Python's sort). -/
def sort_keyframes {α β : Type} [LinearOrder α] (kfs : List (Keyframe α β)) :
    List (Keyframe α β) :=
  kfs.insertionSort (fun k1 k2 => k1.time ≤ k2.time)

/-- The body of `_add_keyframe` after validation and normalization: overwrite
the value at an existing equal time, else append. -/
def add_keyframe_value {α β : Type} [DecidableEq α] (keyframes : List (Keyframe α β))
    (time : α) (value : β) : List (Keyframe α β) :=
  match keyframes with
  | [] => [⟨time, value⟩]
  | kf :: rest =>
    if kf.time = time then ⟨kf.time, value⟩ :: rest
    else kf :: add_keyframe_value rest time value

/-- Model of `Camera.add_rotation_keyframe` (with the default `sort_keyframes=True`):
the normalizer stores `float(angle) % 360`, then the track is sorted. -/
def add_rotation_keyframe {α : Type} [LinearOrderedField α] [FloorRing α]
    (c : Camera α) (time angle : α) : Camera α :=
  { c with rotation_keyframes :=
      sort_keyframes (add_keyframe_value c.rotation_keyframes time (pymod angle 360)) }

/-- Model of `Camera._make_interpolator`: an empty track yields the constant default;
otherwise the track is sorted by time and queries at or before the first time
(resp. at or after the last time) return the first (resp. last) sample value;
interior queries evaluate the externally built `PchipInterpolator`, embedded
as the abstract parameter `pchip`. -/
def make_interpolator {α β : Type} [LinearOrder α] (keyframes : List (Keyframe α β))
    (default_output : β) (pchip : α → β) : α → β :=
  match sort_keyframes keyframes with
  | [] => fun _ => default_output
  | k0 :: rest => fun t =>
    if t ≤ k0.time then k0.value
    else if t ≥ (rest.getLastD k0).time then (rest.getLastD k0).value
    else pchip t

/-- Model of `Camera.get_position` with a freshly built interpolator (the source
builds it on first use); default output `(0.0, 0.0)`. -/
def get_position {α : Type} [LinearOrderedField α] (c : Camera α) (pchip : α → α × α) (t : α) :
    α × α :=
  make_interpolator c.position_keyframes (0, 0) pchip t

/-- Model of `Camera.get_zoom` with a freshly built interpolator; default output `1.0`. -/
def get_zoom {α : Type} [LinearOrderedField α] (c : Camera α) (pchip : α → α) (t : α) : α :=
  make_interpolator c.zoom_keyframes 1 pchip t

/-- Model of `Camera.make_rotation_interpolator`: each angle keyframe (degrees) is
converted to the unit vector `(cos θ, sin θ)` with `θ = np.deg2rad(value) =
value * pi / 180`; the vector track is interpolated with default `(1.0, 0.0)`
and read back through `np.rad2deg(np.arctan2(y, x)) % 360`. -/
def make_rotation_interpolator {α : Type} [LinearOrderedField α] [FloorRing α]
    (M : PyMath α) (c : Camera α) (pchip : α → α × α) : α → α :=
  let xy_keyframes := c.rotation_keyframes.map (fun kf =>
    Keyframe.mk kf.time (M.cos (kf.value * M.pi / 180), M.sin (kf.value * M.pi / 180)))
  let f_xy := make_interpolator xy_keyframes (1, 0) pchip
  fun t => pymod (M.atan2 (f_xy t).2 (f_xy t).1 * (180 / M.pi)) 360

/-- Model of `Camera.get_angle` with a freshly built rotation interpolator. -/
def get_angle {α : Type} [LinearOrderedField α] [FloorRing α] (M : PyMath α)
    (c : Camera α) (pchip : α → α × α) (t : α) : α :=
  make_rotation_interpolator M c pchip t


/-! ### Helper lemmas about `pymod` and the box-fixing normalization -/

theorem pymod_eq_mul_fract {α : Type} [LinearOrderedField α] [FloorRing α]
    (x : α) {m : α} (hm : m ≠ 0) : pymod x m = m * Int.fract (x / m) := by
  unfold pymod Int.fract
  rw [mul_sub, mul_div_cancel₀ _ hm]

theorem pymod_nonneg {α : Type} [LinearOrderedField α] [FloorRing α]
    (x : α) {m : α} (hm : 0 < m) : 0 ≤ pymod x m := by
  rw [pymod_eq_mul_fract x hm.ne']
  exact mul_nonneg hm.le (Int.fract_nonneg _)

theorem pymod_lt {α : Type} [LinearOrderedField α] [FloorRing α]
    (x : α) {m : α} (hm : 0 < m) : pymod x m < m := by
  rw [pymod_eq_mul_fract x hm.ne']
  calc m * Int.fract (x / m) < m * 1 :=
        mul_lt_mul_of_pos_left (Int.fract_lt_one _) hm
    _ = m := mul_one m

theorem pymod_eq_self {α : Type} [LinearOrderedField α] [FloorRing α]
    {x m : α} (hm : 0 < m) (h0 : 0 ≤ x) (h1 : x < m) : pymod x m = x := by
  unfold pymod
  have hfloor : ⌊x / m⌋ = 0 := by
    rw [Int.floor_eq_zero_iff]
    constructor
    · exact div_nonneg h0 hm.le
    · rwa [div_lt_one hm]
  rw [hfloor]
  push_cast
  ring

namespace Element

variable {α : Type} [LinearOrderedField α]

theorem fix_pair_ordered {x y : Option α} {a b : α}
    (h1 : (fix_pair x y).1 = some a) (h2 : (fix_pair x y).2 = some b)
    (ha : a ≠ 0) (hb : b ≠ 0) : a ≤ b := by
  match x, y with
  | none, _ => simp [fix_pair] at h1
  | some _, none => simp [fix_pair] at h2
  | some u, some v =>
    simp only [fix_pair] at h1 h2
    by_cases hc : u ≠ 0 ∧ v ≠ 0 ∧ v < u
    · rw [if_pos hc] at h1 h2
      simp only [Option.some.injEq] at h1 h2
      subst h1; subst h2
      exact le_of_lt hc.2.2
    · rw [if_neg hc] at h1 h2
      simp only [Option.some.injEq] at h1 h2
      subst h1; subst h2
      push_neg at hc
      exact hc ha hb

theorem fix_object_box_ordered (e : Element α) : ordered_pairs (fix_object_box e) := by
  unfold ordered_pairs fix_object_box
  match hbox : e.object_box with
  | none =>
    constructor <;> intro u v h1 h2 _ _ <;>
      simp [Element.left, Element.right, Element.top, Element.bottom, hbox] at h1 h2
  | some (l, t, r, b) =>
    constructor
    · intro u v h1 h2 hu hv
      simp [Element.left, Element.right, hbox] at h1 h2
      exact fix_pair_ordered h1 h2 hu hv
    · intro u v h1 h2 hu hv
      simp [Element.top, Element.bottom, hbox] at h1 h2
      exact fix_pair_ordered h1 h2 hu hv

theorem set_object_box_ordered {e e' : Element α} {b : OBox α}
    (h : set_object_box e (some b) = .ok e') : ordered_pairs e' := by
  simp only [set_object_box] at h
  split at h
  · exact absurd h (by simp)
  · rw [Except.ok.injEq] at h
    exact h ▸ fix_object_box_ordered _

theorem set_object_box_edge_ordered {e e' : Element α} {i : Fin 4} {v : α}
    (h : set_object_box_edge e i v = .ok e') : ordered_pairs e' := by
  unfold set_object_box_edge at h
  split at h <;> split at h
  all_goals first
    | exact absurd h (fun hc => Except.noConfusion hc)
    | (injection h with h
       exact h ▸ fix_object_box_ordered _)

theorem fix_object_box_angle (e : Element α) : (fix_object_box e).angle = e.angle := by
  unfold fix_object_box
  split <;> rfl

theorem set_position_angle {e e' : Element α} {v : Option (OPair α)}
    (h : set_position e v = .ok e') : e'.angle = e.angle := by
  unfold set_position at h
  split at h
  · exact absurd h (by simp)
  · rw [Except.ok.injEq] at h
    exact h ▸ rfl

theorem set_object_box_angle {e e' : Element α} {b : Option (OBox α)}
    (h : set_object_box e b = .ok e') : e'.angle = e.angle := by
  unfold set_object_box at h
  split at h
  · rw [Except.ok.injEq] at h
    exact h ▸ rfl
  · split at h
    · exact absurd h (by simp)
    · rw [Except.ok.injEq] at h
      rw [← h, fix_object_box_angle]

end Element

/-! ### Claims about `Element` -/

/-- Claim C4 (counterexample): assigning the object box `(5, 1, 0, 3)` —
`left = 5`, `right = 0` — succeeds and stores the pair unswapped, because the
swap-on-write guard `if left and right` is a truthiness test and the `0` edge
is falsy; the stored box violates `left ≤ right`. -/
theorem C4_counterexample :
    Element.set_object_box (⟨none, none, none⟩ : Element ℚ)
        (some (some 5, some 1, some 0, some 3)) =
      .ok ⟨none, some (some 5, some 1, some 0, some 3), none⟩ ∧
    ¬((5 : ℚ) ≤ 0) := by
  refine ⟨rfl, by norm_num⟩

/-- Claim C4 (amended): after any successful whole-box or single-edge
assignment, every stored edge pair whose members are both nonzero satisfies
`left ≤ right` (resp. `top ≤ bottom`); a pair containing a `0` edge is stored
as given because the truthiness guard skips the swap. -/
theorem C4_amended {α : Type} [LinearOrderedField α] :
    (∀ (e e' : Element α) (b : OBox α),
      Element.set_object_box e (some b) = .ok e' → Element.ordered_pairs e') ∧
    (∀ (e e' : Element α) (i : Fin 4) (v : α),
      Element.set_object_box_edge e i v = .ok e' → Element.ordered_pairs e') :=
  ⟨fun _ _ _ h => Element.set_object_box_ordered h,
   fun _ _ _ _ h => Element.set_object_box_edge_ordered h⟩

/-- Witness for C4 (amended): the box `(5, 1, 3, 2)` is stored swapped as
`(3, 1, 5, 2)`, and the swap-normalization conclusion holds there. -/
theorem C4_witness :
    Element.set_object_box (⟨none, none, none⟩ : Element ℚ)
        (some (some 5, some 1, some 3, some 2)) =
      .ok ⟨none, some (some 3, some 1, some 5, some 2), none⟩ ∧
    Element.ordered_pairs (⟨none, some (some 3, some 1, some 5, some 2), none⟩ : Element ℚ) := by
  refine ⟨rfl, C4_amended.1 ⟨none, none, none⟩
    ⟨none, some (some 3, some 1, some 5, some 2), none⟩ (some 5, some 1, some 3, some 2) rfl⟩

/-- Claim C5: a numeric value assigned through the `angle` setter is stored
reduced modulo `2 * math.pi`, and the stored angle lies in `[0, 2 * pi)`. -/
theorem C5_angle_normalized (e : Element ℝ) (a : ℝ) :
    (Element.set_angle (2 * Real.pi) e (some a)).angle = some (pymod a (2 * Real.pi)) ∧
    0 ≤ pymod a (2 * Real.pi) ∧ pymod a (2 * Real.pi) < 2 * Real.pi :=
  ⟨rfl, pymod_nonneg a (by positivity), pymod_lt a (by positivity)⟩

/-- Claim C6: `calculate_absolute_box` translates each edge by the matching
position coordinate, so subtracting the coordinates recovers the original box
exactly; the source method reads no instance attribute, so it is embedded as
a plain function of its two arguments and mutates nothing. -/
theorem C6_calculate_absolute_box_roundtrip {α : Type} [LinearOrderedField α]
    (px py l t r b : α) :
    Element.calculate_absolute_box (some (some px, some py))
        (some (some l, some t, some r, some b)) =
      .ok (some (l + px), some (t + py), some (r + px), some (b + py)) ∧
    l + px - px = l ∧ t + py - py = t ∧ r + px - px = r ∧ b + py - py = b :=
  ⟨rfl, add_sub_cancel_right l px, add_sub_cancel_right t py,
   add_sub_cancel_right r px, add_sub_cancel_right b py⟩

/-- Claim C7 (counterexample): with the whole object box unset, reading
`vertecies` does not raise — it returns the non-error placeholder `None`
(`.ok none`), contradicting the claim that it must raise in this case. -/
theorem C7_counterexample :
    Element.vertecies qmath (⟨none, none, none⟩ : Element ℚ) = .ok none := rfl

/-- Claim C7 (amended): `vertecies` returns the placeholder `None` when the
whole object box is unset; it raises `AttributeError` when the box is a fully
numeric tuple but the angle was never assigned; and it raises `ValueError`
when a stored box has an unset edge.  It never computes with a missing
angle or a missing edge. -/
theorem C7_amended {α : Type} [LinearOrderedField α] (M : PyMath α) (e : Element α) :
    (e.object_box = none → Element.vertecies M e = .ok none) ∧
    (∀ l t r b, e.object_box = some (some l, some t, some r, some b) →
      e.angle = none → Element.vertecies M e = .error .attributeError) ∧
    (∀ b, e.object_box = some b → Element.validate_coords4 (some b) = .error .valueError →
      Element.vertecies M e = .error .valueError) := by
  refine ⟨fun h => ?_, fun l t r b hb ha => ?_, fun b hb hv => ?_⟩
  · simp [Element.vertecies, h]
  · simp [Element.vertecies, hb, ha, Element.validate_coords4]
  · simp [Element.vertecies, hb, hv]

/-- Witness for C7 (amended): the three branches at concrete elements. -/
theorem C7_witness :
    Element.vertecies qmath (⟨none, some (some 0, some 0, some 1, some 1), none⟩ : Element ℚ) =
      .error .attributeError ∧
    Element.vertecies qmath (⟨none, some (none, some 0, some 1, some 1), none⟩ : Element ℚ) =
      .error .valueError ∧
    Element.vertecies qmath (⟨some (some 2, some 3), none, none⟩ : Element ℚ) = .ok none :=
  ⟨(C7_amended qmath _).2.1 0 0 1 1 rfl rfl,
   (C7_amended qmath _).2.2 (none, some 0, some 1, some 1) rfl rfl,
   (C7_amended qmath _).1 rfl⟩

/-- Claim C10: assigning `None` through the `angle` setter leaves the element
completely unchanged (it does not clear the stored angle), and an element
constructed with `angle=None` never initializes the `_angle` attribute, so a
subsequent read of the `angle` property fails with `AttributeError` (modelled
as the attribute being `none`). -/
theorem C10_none_angle_is_noop :
    (∀ e : Element ℝ, Element.set_angle (2 * Real.pi) e none = e) ∧
    (∀ (p : Option (OPair ℝ)) (b : Option (OBox ℝ)) (e' : Element ℝ),
      Element.init (2 * Real.pi) p b none = .ok e' → e'.angle = none) := by
  constructor
  · intro e; rfl
  · intro p b e' h
    rw [Element.init] at h
    cases h1 : Element.set_position (⟨none, none, none⟩ : Element ℝ) p with
    | error err => simp only [h1] at h; exact Except.noConfusion h
    | ok e1 =>
      simp only [h1] at h
      cases h2 : Element.set_object_box e1 b with
      | error err => simp only [h2] at h; exact Except.noConfusion h
      | ok e2 =>
        simp only [h2] at h
        injection h with h
        have hangle : e'.angle = e2.angle := by rw [← h]; rfl
        rw [hangle, Element.set_object_box_angle h2, Element.set_position_angle h1]

/-- Witness for C10: concrete no-op assignment and a concrete construction
with `angle=None` whose stored angle attribute stays missing. -/
theorem C10_witness :
    Element.set_angle (2 * Real.pi) (⟨none, none, none⟩ : Element ℝ) none = ⟨none, none, none⟩ ∧
    Element.init (2 * Real.pi) none none none = .ok (⟨none, none, none⟩ : Element ℝ) ∧
    (⟨none, none, none⟩ : Element ℝ).angle = none :=
  ⟨C10_none_angle_is_noop.1 _, rfl, C10_none_angle_is_noop.2 none none _ rfl⟩



/-! ### Claims about `Scene.is_box_touching` and `Scene.move_next` -/

theorem bool_or_comm_pairs (a b c d : Bool) : (!(a || b || c || d)) = (!(b || a || d || c)) := by
  cases a <;> cases b <;> cases c <;> cases d <;> rfl

/-- Claim C9: `is_box_touching` is symmetric in its two box arguments, for
all fully numeric boxes and every `minimum_distance ≥ 0`. -/
theorem C9_is_box_touching_symm {α : Type} [LinearOrderedField α]
    (b1 b2 : NBox α) (d : α) (hd : 0 ≤ d) :
    Scene.is_box_touching (some (Element.box_to_obox b1)) (some (Element.box_to_obox b2)) d =
      Scene.is_box_touching (some (Element.box_to_obox b2)) (some (Element.box_to_obox b1)) d := by
  obtain ⟨l1, t1, r1, bo1⟩ := b1
  obtain ⟨l2, t2, r2, bo2⟩ := b2
  exact congrArg Except.ok (bool_or_comm_pairs _ _ _ _)

/-- Witness for C9 at concrete rational boxes and distance `1 ≥ 0`. -/
theorem C9_witness :
    (0 : ℚ) ≤ 1 ∧
    Scene.is_box_touching (some (Element.box_to_obox ((0 : ℚ), 0, 1, 1)))
        (some (Element.box_to_obox ((2 : ℚ), 0, 3, 1))) 1 =
      Scene.is_box_touching (some (Element.box_to_obox ((2 : ℚ), 0, 3, 1)))
        (some (Element.box_to_obox ((0 : ℚ), 0, 1, 1))) 1 :=
  ⟨by norm_num, C9_is_box_touching_symm (0, 0, 1, 1) (2, 0, 3, 1) 1 (by norm_num)⟩

theorem move_next_loop_false {α : Type} [LinearOrderedField α]
    {M : PyMath α} {s : Scene α} {e : Element α} {i : ℕ} {ref : Element α}
    {angle : Option α} {md : α} {strict : Bool} {margin inc : α} {r : ℕ → α}
    {e' : Element α} :
    ∀ {fuel a k : ℕ},
      Scene.move_next_loop M s e i ref angle md strict margin inc r fuel a k = .ok (false, e') →
      e' = e := by
  intro fuel
  induction fuel with
  | zero =>
    intro a k h
    rw [Scene.move_next_loop] at h
    injection h with h
    injection h with h1 h2
    exact h2.symm
  | succ fuel ih =>
    intro a k h
    simp only [Scene.move_next_loop] at h
    cases hA : Scene.move_next_attempt M s e i ref angle md strict margin inc r a k with
    | error err => rw [hA] at h; exact Except.noConfusion h
    | ok res =>
      rw [hA] at h
      match res with
      | none => exact ih h
      | some npos =>
        simp only at h
        cases hs : Element.set_position e (some (some npos.1, some npos.2)) with
        | error err => rw [hs] at h; exact Except.noConfusion h
        | ok e2 =>
          rw [hs] at h
          injection h with h
          injection h with h1 h2
          exact Bool.noConfusion h1

/-- Claim C2: whenever `move_next` exhausts its attempts and returns the
failure value `False`, the element's position is exactly its pre-call value
(in fact the element is unchanged). -/
theorem C2_move_next_failure_no_mutation {α : Type} [LinearOrderedField α]
    (M : PyMath α) (s : Scene α) (e : Element α) (i : ℕ)
    (reference_element : Option (Element α)) (angle : Option α)
    (minimum_distance : α) (strict : Bool) (artboard_margin : α)
    (max_attempts : Option ℕ) (r : ℕ → α) (k : ℕ) (e' : Element α)
    (h : Scene.move_next M s e i reference_element angle minimum_distance strict
        artboard_margin max_attempts r k = .ok (false, e')) :
    e'.position = e.position := by
  rw [Scene.move_next] at h
  cases hr : Scene.resolve_reference s i reference_element with
  | error err => rw [hr] at h; exact Except.noConfusion h
  | ok ref =>
    rw [hr] at h
    simp only at h
    split at h
    · exact Except.noConfusion h
    · rw [move_next_loop_false h]

/-- Witness for C2: a concrete `move_next` run that exhausts its three
attempts (every candidate touches the reference element) and returns
`False` with the element unchanged. -/
theorem C2_witness :
    Scene.move_next qmath ⟨10, 10, []⟩ wit_e 0 (some wit_ref) (some 0) 0 true 0 (some 3)
        (fun _ => 0) 0 = .ok (false, wit_e) ∧
    wit_e.position = wit_e.position :=
  ⟨by decide, C2_move_next_failure_no_mutation qmath ⟨10, 10, []⟩ wit_e 0 (some wit_ref) (some 0)
    0 true 0 (some 3) (fun _ => 0) 0 wit_e (by decide)⟩

/-! ### Claim C1: `move_random` with collision avoidance -/

theorem scan_collision_false {α : Type} [LinearOrderedField α]
    {M : PyMath α} {e : Element α} {i : ℕ} {xv yv md : α} :
    ∀ {l : List (ℕ × Element α)},
      Scene.scan_collision M e i xv yv md l = .ok false →
      ∀ j se, (j, se) ∈ l → j ≠ i →
        ∃ bb box1 box2,
          Element.bounding_box M e = .ok bb ∧
          Element.calculate_absolute_box (some (some xv, some yv))
            (bb.map Element.box_to_obox) = .ok box1 ∧
          Element.absolute_bounding_box M se = .ok box2 ∧
          Scene.is_box_touching (some box1) (some box2) md = .ok false := by
  intro l
  induction l with
  | nil => intro _ j se hmem _; exact absurd hmem (List.not_mem_nil _)
  | cons hd tl ih =>
    obtain ⟨j0, se0⟩ := hd
    intro h j se hmem hne
    simp only [Scene.scan_collision] at h
    by_cases hj : j0 = i
    · rw [if_pos hj] at h
      rcases List.mem_cons.mp hmem with heq | hmemtl
      · injection heq with h1 h2
        exact absurd (h1.trans hj) hne
      · exact ih h j se hmemtl hne
    · rw [if_neg hj] at h
      cases hbb : Element.bounding_box M e with
      | error err => rw [hbb] at h; exact Except.noConfusion h
      | ok bb =>
        rw [hbb] at h
        try simp only [] at h
        cases hb1 : Element.calculate_absolute_box (some (some xv, some yv))
            (bb.map Element.box_to_obox) with
        | error err => rw [hb1] at h; exact Except.noConfusion h
        | ok box1 =>
          rw [hb1] at h
          try simp only [] at h
          cases hb2 : Element.absolute_bounding_box M se0 with
          | error err => rw [hb2] at h; exact Except.noConfusion h
          | ok box2 =>
            rw [hb2] at h
            try simp only [] at h
            cases ht : Scene.is_box_touching (some box1) (some box2) md with
            | error err => rw [ht] at h; exact Except.noConfusion h
            | ok tval =>
              rw [ht] at h
              try simp only [] at h
              match tval with
              | true => exact absurd h (by simp)
              | false =>
                rcases List.mem_cons.mp hmem with heq | hmemtl
                · injection heq with h1 h2
                  subst h1; subst h2
                  exact ⟨bb, box1, box2, rfl, hb1, hb2, ht⟩
                · obtain ⟨bb2, bx1, bx2, k1, k2, k3, k4⟩ := ih h j se hmemtl hne
                  exact ⟨bb2, bx1, bx2, hbb.symm.trans k1, k2, k3, k4⟩

/-- Claim C1: a successful `move_random(..., collision=True, minimum_distance=0)`
commits exactly the returned position to the element, and the element's
absolute bounding box at the committed position does not touch the absolute
bounding box of any other element of the collision list (every entry with an
index different from the moved element's). -/
theorem C1_move_random_collision_free {α : Type} [LinearOrderedField α]
    (M : PyMath α) (s : Scene α) (e : Element α) (i : ℕ)
    (constrain_to_artboard : Bool) (artboard_margin : α)
    (scene_elements : Option (List (ℕ × Element α)))
    (r : ℕ → α) (fuel k : ℕ) (xv yv : α) (e' : Element α)
    (h : Scene.move_random M s e i constrain_to_artboard artboard_margin true
        scene_elements (some 0) r fuel k = .ok (some (xv, yv), e')) :
    e'.position = some (some xv, some yv) ∧
    ∀ j se, (j, se) ∈ scene_elements.getD s.elements.enum → j ≠ i →
      ∃ box1 box2,
        Element.absolute_bounding_box M e' = .ok box1 ∧
        Element.absolute_bounding_box M se = .ok box2 ∧
        Scene.is_box_touching (some box1) (some box2) 0 = .ok false := by
  induction fuel generalizing k with
  | zero =>
    simp only [Scene.move_random] at h
    exact absurd h (by simp)
  | succ fuel ih =>
    simp only [Scene.move_random] at h
    cases hsp : Scene.sample_position M s e constrain_to_artboard artboard_margin r k with
    | error err => rw [hsp] at h; exact Except.noConfusion h
    | ok p =>
      obtain ⟨x0, y0⟩ := p
      rw [hsp] at h
      try simp only [] at h
      rw [if_neg (by decide : ¬(true = false))] at h
      cases hscan : Scene.scan_collision M e i x0 y0 ((some (0 : α)).getD 0)
          (scene_elements.getD s.elements.enum) with
      | error err => rw [hscan] at h; exact Except.noConfusion h
      | ok b =>
        rw [hscan] at h
        try simp only [] at h
        match b with
        | true => exact ih (k + 2) h
        | false =>
          injection h with h
          injection h with hpos hel
          injection hpos with hpos
          injection hpos with hx hy
          subst hx; subst hy; subst hel
          constructor
          · rfl
          · intro j se hmem hne
            obtain ⟨bb, box1, box2, hbb, hb1, hb2, ht⟩ :=
              scan_collision_false hscan j se hmem hne
            have habs : Element.absolute_bounding_box M
                { e with position := some (some x0, some y0) } = .ok box1 := by
              unfold Element.absolute_bounding_box
              have hbb2 : Element.bounding_box M
                  { e with position := some (some x0, some y0) } = .ok bb := hbb
              rw [hbb2]
              exact hb1
            exact ⟨box1, box2, habs, hb2, ht⟩

/-- Witness for C1: a concrete collision-checked `move_random` run succeeds at
`(0, 0)` and the committed element touches no other scene element. -/
theorem C1_witness :
    Scene.move_random qmath wit_scene wit_a 0 false 0 true none (some 0) (fun _ => 0) 1 0 =
      .ok (some ((0 : ℚ), (0 : ℚ)), wit_moved) ∧
    (wit_moved.position = some (some 0, some 0) ∧
      ∀ j se, (j, se) ∈ (none : Option (List (ℕ × Element ℚ))).getD wit_scene.elements.enum →
        j ≠ 0 →
        ∃ box1 box2,
          Element.absolute_bounding_box qmath wit_moved = .ok box1 ∧
          Element.absolute_bounding_box qmath se = .ok box2 ∧
          Scene.is_box_touching (some box1) (some box2) 0 = .ok false) :=
  ⟨by decide,
   C1_move_random_collision_free qmath wit_scene wit_a 0 false 0 none (fun _ => 0) 1 0 0 0
     wit_moved (by decide)⟩


/-! ### Helper lemmas for the interpolation claims -/

theorem pymod_eq_add_self {α : Type} [LinearOrderedField α] [FloorRing α]
    {x m : α} (hm : 0 < m) (h0 : -m ≤ x) (h1 : x < 0) : pymod x m = x + m := by
  unfold pymod
  have hfloor : ⌊x / m⌋ = -1 := by
    rw [Int.floor_eq_iff]
    constructor
    · push_cast
      rw [neg_le, ← neg_div]
      exact div_le_one_of_le₀ (neg_le.mpr h0) hm.le
    · push_cast
      rw [show (-1 : α) + 1 = 0 by ring]
      exact div_neg_of_neg_of_pos h1 hm
  rw [hfloor]
  push_cast
  ring

theorem make_interpolator_le_first {α β : Type} [LinearOrder α]
    {kfs : List (Keyframe α β)} {d : β} {pchip : α → β} {k0 : Keyframe α β}
    {rest : List (Keyframe α β)} (hs : sort_keyframes kfs = k0 :: rest)
    {t : α} (ht : t ≤ k0.time) :
    make_interpolator kfs d pchip t = k0.value := by
  unfold make_interpolator
  rw [hs]
  simp only []
  rw [if_pos ht]

theorem make_interpolator_ge_last {α β : Type} [LinearOrder α]
    {kfs : List (Keyframe α β)} {d : β} {pchip : α → β} {k0 : Keyframe α β}
    {rest : List (Keyframe α β)} (hs : sort_keyframes kfs = k0 :: rest)
    (hp : (k0 :: rest).Pairwise (fun a b : Keyframe α β => a.time < b.time))
    {t : α} (ht : (rest.getLastD k0).time ≤ t) :
    make_interpolator kfs d pchip t = (rest.getLastD k0).value := by
  unfold make_interpolator
  rw [hs]
  simp only []
  by_cases hle : t ≤ k0.time
  · cases rest with
    | nil => rw [if_pos hle]; rfl
    | cons r1 rs =>
      exfalso
      have hmem : (r1 :: rs).getLastD k0 ∈ r1 :: rs := by
        rw [List.getLastD_cons]
        exact List.getLastD_mem_cons rs r1
      have hlt : k0.time < ((r1 :: rs).getLastD k0).time :=
        (List.pairwise_cons.mp hp).1 _ hmem
      exact absurd (le_trans ht hle) (not_le.mpr hlt)
  · rw [if_neg hle, if_pos ht]

theorem orderedInsert_map_time {α β γ : Type} [LinearOrder α]
    (f : Keyframe α β → Keyframe α γ) (hf : ∀ k, (f k).time = k.time)
    (a : Keyframe α β) :
    ∀ l : List (Keyframe α β),
      List.orderedInsert (fun k1 k2 => k1.time ≤ k2.time) (f a) (l.map f) =
        (List.orderedInsert (fun k1 k2 => k1.time ≤ k2.time) a l).map f
  | [] => rfl
  | b :: l => by
    simp only [List.map_cons, List.orderedInsert]
    by_cases h : a.time ≤ b.time
    · rw [if_pos (by rw [hf, hf]; exact h), if_pos h, List.map_cons, List.map_cons]
    · rw [if_neg (by rw [hf, hf]; exact h), if_neg h, List.map_cons,
        orderedInsert_map_time f hf a l]

theorem sort_keyframes_map {α β γ : Type} [LinearOrder α]
    (f : Keyframe α β → Keyframe α γ) (hf : ∀ k, (f k).time = k.time) :
    ∀ l : List (Keyframe α β), sort_keyframes (l.map f) = (sort_keyframes l).map f
  | [] => rfl
  | a :: l => by
    simp only [sort_keyframes, List.map_cons, List.insertionSort]
    rw [show List.insertionSort (fun k1 k2 : Keyframe α γ => k1.time ≤ k2.time) (l.map f) =
        (List.insertionSort (fun k1 k2 : Keyframe α β => k1.time ≤ k2.time) l).map f from
      sort_keyframes_map f hf l]
    exact orderedInsert_map_time f hf a _

theorem mem_add_keyframe_value {α β : Type} [DecidableEq α]
    {time : α} {value : β} :
    ∀ {l : List (Keyframe α β)} {kf : Keyframe α β},
      kf ∈ add_keyframe_value l time value → kf ∈ l ∨ kf.value = value := by
  intro l
  induction l with
  | nil =>
    intro kf h
    simp only [add_keyframe_value, List.mem_singleton] at h
    right; rw [h]
  | cons a l ih =>
    intro kf h
    simp only [add_keyframe_value] at h
    by_cases ht : a.time = time
    · rw [if_pos ht] at h
      rcases List.mem_cons.mp h with heq | hmem
      · right; rw [heq]
      · left; exact List.mem_cons_of_mem _ hmem
    · rw [if_neg ht] at h
      rcases List.mem_cons.mp h with heq | hmem
      · left; exact heq ▸ List.mem_cons_self _ _
      · rcases ih hmem with h1 | h2
        · left; exact List.mem_cons_of_mem _ h1
        · right; exact h2

theorem add_rotation_keyframe_values {α : Type} [LinearOrderedField α] [FloorRing α]
    (c : Camera α) (time angle : α)
    (hc : ∀ kf ∈ c.rotation_keyframes, 0 ≤ kf.value ∧ kf.value < 360) :
    ∀ kf ∈ (add_rotation_keyframe c time angle).rotation_keyframes,
      0 ≤ kf.value ∧ kf.value < 360 := by
  intro kf hkf
  simp only [add_rotation_keyframe, sort_keyframes] at hkf
  have hmem : kf ∈ add_keyframe_value c.rotation_keyframes time (pymod angle 360) :=
    (List.perm_insertionSort _ _).mem_iff.mp hkf
  rcases mem_add_keyframe_value hmem with h1 | h2
  · exact hc kf h1
  · rw [h2]
    exact ⟨pymod_nonneg _ (by norm_num), pymod_lt _ (by norm_num)⟩

theorem rad2deg_atan2_cos_sin {v : ℝ} (hv0 : 0 ≤ v) (hv1 : v < 360) :
    pymod (Complex.arg (↑(Real.cos (v * Real.pi / 180)) +
      ↑(Real.sin (v * Real.pi / 180)) * Complex.I) * (180 / Real.pi)) 360 = v := by
  have hpi := Real.pi_pos
  by_cases hcase : v ≤ 180
  · have h1 : v * Real.pi / 180 ∈ Set.Ioc (-Real.pi) Real.pi := by
      constructor
      · have : (0 : ℝ) ≤ v * Real.pi / 180 :=
          div_nonneg (mul_nonneg hv0 hpi.le) (by norm_num)
        linarith
      · rw [div_le_iff (by norm_num : (0:ℝ) < 180)]
        nlinarith
    have harg : Complex.arg (↑(Real.cos (v * Real.pi / 180)) +
        ↑(Real.sin (v * Real.pi / 180)) * Complex.I) = v * Real.pi / 180 := by
      rw [Complex.ofReal_cos, Complex.ofReal_sin]
      exact Complex.arg_cos_add_sin_mul_I h1
    rw [harg]
    have heq : v * Real.pi / 180 * (180 / Real.pi) = v := by
      field_simp
    rw [heq]
    exact pymod_eq_self (by norm_num) hv0 hv1
  · push_neg at hcase
    have h1 : v * Real.pi / 180 - 2 * Real.pi ∈ Set.Ioc (-Real.pi) Real.pi := by
      constructor
      · have hgt : Real.pi < v * Real.pi / 180 := by
          rw [lt_div_iff (by norm_num : (0:ℝ) < 180)]
          nlinarith
        linarith
      · have h360 : v * Real.pi < 360 * Real.pi :=
          mul_lt_mul_of_pos_right hv1 hpi
        rw [sub_le_iff_le_add]
        rw [div_le_iff (by norm_num : (0:ℝ) < 180)]
        nlinarith
    have harg : Complex.arg (↑(Real.cos (v * Real.pi / 180)) +
        ↑(Real.sin (v * Real.pi / 180)) * Complex.I) = v * Real.pi / 180 - 2 * Real.pi := by
      rw [← Real.cos_sub_two_pi, ← Real.sin_sub_two_pi]
      rw [Complex.ofReal_cos, Complex.ofReal_sin]
      exact Complex.arg_cos_add_sin_mul_I h1
    rw [harg]
    have heq : (v * Real.pi / 180 - 2 * Real.pi) * (180 / Real.pi) = v - 360 := by
      field_simp
      ring
    rw [heq]
    rw [pymod_eq_add_self (by norm_num) (by linarith) (by linarith)]
    ring

theorem make_rotation_interpolator_le_first {α : Type} [LinearOrderedField α] [FloorRing α]
    (M : PyMath α) (c : Camera α) (pchip : α → α × α) {k0 : Keyframe α α}
    {rest : List (Keyframe α α)} (hs : sort_keyframes c.rotation_keyframes = k0 :: rest)
    {t : α} (ht : t ≤ k0.time) :
    get_angle M c pchip t =
      pymod (M.atan2 (M.sin (k0.value * M.pi / 180)) (M.cos (k0.value * M.pi / 180)) *
        (180 / M.pi)) 360 := by
  simp only [get_angle, make_rotation_interpolator]
  have hs2 : sort_keyframes (c.rotation_keyframes.map (fun kf =>
      Keyframe.mk kf.time (M.cos (kf.value * M.pi / 180), M.sin (kf.value * M.pi / 180)))) =
      Keyframe.mk k0.time (M.cos (k0.value * M.pi / 180), M.sin (k0.value * M.pi / 180)) ::
        rest.map (fun kf =>
          Keyframe.mk kf.time (M.cos (kf.value * M.pi / 180), M.sin (kf.value * M.pi / 180))) := by
    rw [sort_keyframes_map (fun kf : Keyframe α α => Keyframe.mk kf.time
      (M.cos (kf.value * M.pi / 180), M.sin (kf.value * M.pi / 180)))
      (fun _ => rfl) c.rotation_keyframes, hs, List.map_cons]
  rw [make_interpolator_le_first hs2 ht]

theorem make_rotation_interpolator_ge_last {α : Type} [LinearOrderedField α] [FloorRing α]
    (M : PyMath α) (c : Camera α) (pchip : α → α × α) {k0 : Keyframe α α}
    {rest : List (Keyframe α α)} (hs : sort_keyframes c.rotation_keyframes = k0 :: rest)
    (hp : (k0 :: rest).Pairwise (fun a b : Keyframe α α => a.time < b.time))
    {t : α} (ht : (rest.getLastD k0).time ≤ t) :
    get_angle M c pchip t =
      pymod (M.atan2 (M.sin ((rest.getLastD k0).value * M.pi / 180))
        (M.cos ((rest.getLastD k0).value * M.pi / 180)) * (180 / M.pi)) 360 := by
  simp only [get_angle, make_rotation_interpolator]
  have hs2 : sort_keyframes (c.rotation_keyframes.map (fun kf =>
      Keyframe.mk kf.time (M.cos (kf.value * M.pi / 180), M.sin (kf.value * M.pi / 180)))) =
      Keyframe.mk k0.time (M.cos (k0.value * M.pi / 180), M.sin (k0.value * M.pi / 180)) ::
        rest.map (fun kf =>
          Keyframe.mk kf.time (M.cos (kf.value * M.pi / 180), M.sin (kf.value * M.pi / 180))) := by
    rw [sort_keyframes_map (fun kf : Keyframe α α => Keyframe.mk kf.time
      (M.cos (kf.value * M.pi / 180), M.sin (kf.value * M.pi / 180)))
      (fun _ => rfl) c.rotation_keyframes, hs, List.map_cons]
  have hp2 : (Keyframe.mk k0.time (M.cos (k0.value * M.pi / 180), M.sin (k0.value * M.pi / 180)) ::
      rest.map (fun kf =>
        Keyframe.mk kf.time (M.cos (kf.value * M.pi / 180), M.sin (kf.value * M.pi / 180)))).Pairwise
      (fun a b : Keyframe α (α × α) => a.time < b.time) := by
    rw [show (Keyframe.mk k0.time (M.cos (k0.value * M.pi / 180),
        M.sin (k0.value * M.pi / 180)) ::
        rest.map (fun kf => Keyframe.mk kf.time
          (M.cos (kf.value * M.pi / 180), M.sin (kf.value * M.pi / 180)))) =
        (k0 :: rest).map (fun kf => Keyframe.mk kf.time
          (M.cos (kf.value * M.pi / 180), M.sin (kf.value * M.pi / 180))) from
      (List.map_cons (fun kf : Keyframe α α => Keyframe.mk kf.time
        (M.cos (kf.value * M.pi / 180), M.sin (kf.value * M.pi / 180))) k0 rest).symm]
    exact List.pairwise_map.mpr hp
  have hlast : ((rest.map (fun kf => Keyframe.mk kf.time
      (M.cos (kf.value * M.pi / 180), M.sin (kf.value * M.pi / 180)))).getLastD
      (Keyframe.mk k0.time (M.cos (k0.value * M.pi / 180), M.sin (k0.value * M.pi / 180)))) =
      Keyframe.mk (rest.getLastD k0).time
        (M.cos ((rest.getLastD k0).value * M.pi / 180),
         M.sin ((rest.getLastD k0).value * M.pi / 180)) :=
    List.getLastD_map _ rest k0
  rw [make_interpolator_ge_last hs2 hp2 (by rw [hlast]; exact ht), hlast]

/-- Claim C3: for every non-empty keyframe track (position, zoom, rotation),
querying at or before the first sample time returns the first sample's value
and querying at or after the last sample time returns the last sample's value
(flat extrapolation, never extrapolating slope; the `≥ last` direction uses
the track's times being strictly increasing, which holds for tracks built by
`add_*_keyframe` since times are unique and sorted).  The final part records
that `add_rotation_keyframe` keeps every stored rotation value normalized
into `[0, 360)`, which the rotation parts assume. -/
theorem C3_flat_extrapolation :
    (∀ (c : Camera ℝ) (pchip : ℝ → ℝ × ℝ) (k0 : Keyframe ℝ (ℝ × ℝ))
        (rest : List (Keyframe ℝ (ℝ × ℝ))) (t : ℝ),
      sort_keyframes c.position_keyframes = k0 :: rest →
      (t ≤ k0.time → get_position c pchip t = k0.value) ∧
      ((k0 :: rest).Pairwise (fun a b => a.time < b.time) →
        (rest.getLastD k0).time ≤ t → get_position c pchip t = (rest.getLastD k0).value)) ∧
    (∀ (c : Camera ℝ) (pchip : ℝ → ℝ) (k0 : Keyframe ℝ ℝ)
        (rest : List (Keyframe ℝ ℝ)) (t : ℝ),
      sort_keyframes c.zoom_keyframes = k0 :: rest →
      (t ≤ k0.time → get_zoom c pchip t = k0.value) ∧
      ((k0 :: rest).Pairwise (fun a b => a.time < b.time) →
        (rest.getLastD k0).time ≤ t → get_zoom c pchip t = (rest.getLastD k0).value)) ∧
    (∀ (c : Camera ℝ) (pchip : ℝ → ℝ × ℝ) (k0 : Keyframe ℝ ℝ)
        (rest : List (Keyframe ℝ ℝ)) (t : ℝ),
      sort_keyframes c.rotation_keyframes = k0 :: rest →
      (∀ kf ∈ k0 :: rest, 0 ≤ kf.value ∧ kf.value < 360) →
      (t ≤ k0.time →
        get_angle (⟨Real.cos, Real.sin, Real.sqrt,
          fun yv xv => Complex.arg (↑xv + ↑yv * Complex.I), Real.pi⟩ : PyMath ℝ)
          c pchip t = k0.value) ∧
      ((k0 :: rest).Pairwise (fun a b => a.time < b.time) →
        (rest.getLastD k0).time ≤ t →
        get_angle (⟨Real.cos, Real.sin, Real.sqrt,
          fun yv xv => Complex.arg (↑xv + ↑yv * Complex.I), Real.pi⟩ : PyMath ℝ)
          c pchip t = (rest.getLastD k0).value)) ∧
    (∀ (c : Camera ℝ) (time angle : ℝ),
      (∀ kf ∈ c.rotation_keyframes, 0 ≤ kf.value ∧ kf.value < 360) →
      ∀ kf ∈ (add_rotation_keyframe c time angle).rotation_keyframes,
        0 ≤ kf.value ∧ kf.value < 360) := by
  refine ⟨?_, ?_, ?_, ?_⟩
  · intro c pchip k0 rest t hs
    exact ⟨fun ht => make_interpolator_le_first hs ht,
      fun hp ht => make_interpolator_ge_last hs hp ht⟩
  · intro c pchip k0 rest t hs
    exact ⟨fun ht => make_interpolator_le_first hs ht,
      fun hp ht => make_interpolator_ge_last hs hp ht⟩
  · intro c pchip k0 rest t hs hvals
    constructor
    · intro ht
      rw [make_rotation_interpolator_le_first _ c pchip hs ht]
      exact rad2deg_atan2_cos_sin (hvals k0 (List.mem_cons_self _ _)).1
        (hvals k0 (List.mem_cons_self _ _)).2
    · intro hp ht
      rw [make_rotation_interpolator_ge_last _ c pchip hs hp ht]
      have hmem : rest.getLastD k0 ∈ k0 :: rest := List.getLastD_mem_cons rest k0
      exact rad2deg_atan2_cos_sin (hvals _ hmem).1 (hvals _ hmem).2
  · intro c time angle hc
    exact add_rotation_keyframe_values c time angle hc

/-- Claim C8: a camera with zero keyframes in all three tracks returns the
documented defaults for every query time: position `(0, 0)`, angle `0`,
zoom `1.0`; an empty track is not an error. -/
theorem C8_empty_camera_defaults (c : Camera ℝ) (pp pr : ℝ → ℝ × ℝ) (pz : ℝ → ℝ) (t : ℝ)
    (h1 : c.position_keyframes = []) (h2 : c.rotation_keyframes = [])
    (h3 : c.zoom_keyframes = []) :
    get_position c pp t = (0, 0) ∧
    get_angle (⟨Real.cos, Real.sin, Real.sqrt,
      fun yv xv => Complex.arg (↑xv + ↑yv * Complex.I), Real.pi⟩ : PyMath ℝ) c pr t = 0 ∧
    get_zoom c pz t = 1 := by
  refine ⟨?_, ?_, ?_⟩
  · simp [get_position, make_interpolator, sort_keyframes, h1, List.insertionSort]
  · simp only [get_angle, make_rotation_interpolator, h2, List.map_nil]
    simp only [make_interpolator, sort_keyframes, List.insertionSort]
    norm_num [Complex.arg_one, pymod]
  · simp [get_zoom, make_interpolator, sort_keyframes, h3, List.insertionSort]

/-- Witness for C8 at a concrete empty camera and query time `7`. -/
theorem C8_witness :
    get_position (⟨(640, 480), [], [], []⟩ : Camera ℝ) (fun _ => (5, 5)) 7 = (0, 0) ∧
    get_angle (⟨Real.cos, Real.sin, Real.sqrt,
      fun yv xv => Complex.arg (↑xv + ↑yv * Complex.I), Real.pi⟩ : PyMath ℝ)
      (⟨(640, 480), [], [], []⟩ : Camera ℝ) (fun _ => (5, 5)) 7 = 0 ∧
    get_zoom (⟨(640, 480), [], [], []⟩ : Camera ℝ) (fun _ => 5) 7 = 1 :=
  C8_empty_camera_defaults _ _ _ _ 7 rfl rfl rfl

/-- Witness for C3 on concrete one-sample tracks, querying on both sides of
the sample time. -/
theorem C3_witness :
    get_position (⟨(640, 480), [⟨0, (1, 2)⟩], [⟨0, 3⟩], [⟨0, 90⟩]⟩ : Camera ℝ)
      (fun _ => (0, 0)) (-1) = (1, 2) ∧
    get_position (⟨(640, 480), [⟨0, (1, 2)⟩], [⟨0, 3⟩], [⟨0, 90⟩]⟩ : Camera ℝ)
      (fun _ => (0, 0)) 5 = (1, 2) ∧
    get_zoom (⟨(640, 480), [⟨0, (1, 2)⟩], [⟨0, 3⟩], [⟨0, 90⟩]⟩ : Camera ℝ)
      (fun _ => 0) (-1) = 3 ∧
    get_zoom (⟨(640, 480), [⟨0, (1, 2)⟩], [⟨0, 3⟩], [⟨0, 90⟩]⟩ : Camera ℝ)
      (fun _ => 0) 5 = 3 ∧
    get_angle (⟨Real.cos, Real.sin, Real.sqrt,
      fun yv xv => Complex.arg (↑xv + ↑yv * Complex.I), Real.pi⟩ : PyMath ℝ)
      (⟨(640, 480), [⟨0, (1, 2)⟩], [⟨0, 3⟩], [⟨0, 90⟩]⟩ : Camera ℝ)
      (fun _ => (0, 0)) (-1) = 90 ∧
    get_angle (⟨Real.cos, Real.sin, Real.sqrt,
      fun yv xv => Complex.arg (↑xv + ↑yv * Complex.I), Real.pi⟩ : PyMath ℝ)
      (⟨(640, 480), [⟨0, (1, 2)⟩], [⟨0, 3⟩], [⟨0, 90⟩]⟩ : Camera ℝ)
      (fun _ => (0, 0)) 5 = 90 := by
  have hvals : ∀ kf ∈ ((⟨0, 90⟩ : Keyframe ℝ ℝ) :: []), 0 ≤ kf.value ∧ kf.value < 360 := by
    intro kf hkf
    rw [List.mem_singleton] at hkf
    subst hkf
    norm_num
  refine ⟨(C3_flat_extrapolation.1 ⟨(640, 480), [⟨0, (1, 2)⟩], [⟨0, 3⟩], [⟨0, 90⟩]⟩
      (fun _ => (0, 0)) ⟨0, (1, 2)⟩ [] (-1) rfl).1 (by norm_num),
    (C3_flat_extrapolation.1 ⟨(640, 480), [⟨0, (1, 2)⟩], [⟨0, 3⟩], [⟨0, 90⟩]⟩
      (fun _ => (0, 0)) ⟨0, (1, 2)⟩ [] 5 rfl).2 (by simp) (by norm_num),
    (C3_flat_extrapolation.2.1 ⟨(640, 480), [⟨0, (1, 2)⟩], [⟨0, 3⟩], [⟨0, 90⟩]⟩
      (fun _ => 0) ⟨0, 3⟩ [] (-1) rfl).1 (by norm_num),
    (C3_flat_extrapolation.2.1 ⟨(640, 480), [⟨0, (1, 2)⟩], [⟨0, 3⟩], [⟨0, 90⟩]⟩
      (fun _ => 0) ⟨0, 3⟩ [] 5 rfl).2 (by simp) (by norm_num),
    (C3_flat_extrapolation.2.2.1 ⟨(640, 480), [⟨0, (1, 2)⟩], [⟨0, 3⟩], [⟨0, 90⟩]⟩
      (fun _ => (0, 0)) ⟨0, 90⟩ [] (-1) rfl hvals).1 (by norm_num),
    (C3_flat_extrapolation.2.2.1 ⟨(640, 480), [⟨0, (1, 2)⟩], [⟨0, 3⟩], [⟨0, 90⟩]⟩
      (fun _ => (0, 0)) ⟨0, 90⟩ [] 5 rfl hvals).2 (by simp) (by norm_num)⟩
